import Mathlib

/-
Verification of the outbox job-queue subsystem of ida-mcp-gateway.

The Python modules are shallowly embedded: JSON/Python values become the
inductive PyVal, directories become lists of entries, and each relevant
function of the source is translated into a Lean definition of the same
name (module boundaries become namespaces).  External effects (network
calls, clocks) are passed in as explicit parameters, and fallible Python
code returns Except.
-/

set_option autoImplicit false

/-- Embedding of a Python/JSON value as stored in a job file or result dict. -/
inductive PyVal where
  | pstr (s : String)
  | pint (n : Int)
  | pbool (b : Bool)
  | pnull
  | pobj (fields : List (String × PyVal))
  | plist (items : List PyVal)

/-- A Python dict with string keys (a JSON object), as an association list. -/
abbrev Jmap := List (String × PyVal)

/-- Embedding of the Python exceptions raised by the embedded code. -/
inductive PyExc where
  | jobSchemaError (msg : String)
  | unboundLocalError (name : String)
  | nameError (name : String)
  | attributeError (attr : String)
  | keyError (key : String)
deriving DecidableEq

/-- Whether an exception is the JobSchemaError of tools/job_schema.py. -/
def PyExc.isSchemaError : PyExc → Bool
  | .jobSchemaError _ => true
  | _ => false

/-- Python dict.get(k): the value at k, or None (here: Option). -/
def jget (j : Jmap) (k : String) : Option PyVal :=
  (j.find? (fun kv => kv.1 == k)).map (·.2)

/-- Python dict.get(k) where the default None is represented as pnull. -/
def getOrNull (j : Jmap) (k : String) : PyVal :=
  (jget j k).getD .pnull

/-- Python truthiness of a value. -/
def truthy : PyVal → Bool
  | .pstr s => s != ""
  | .pint n => n != 0
  | .pbool b => b
  | .pnull => false
  | .pobj f => !f.isEmpty
  | .plist l => !l.isEmpty

/-- Python `a or b`: a if a is truthy, else b. -/
def pyOr (a b : PyVal) : PyVal := if truthy a then a else b

mutual
/-- Python str() of a value (dict/list rendering follows repr of elements). -/
def pyStr : PyVal → String
  | .pstr s => s
  | .pint n => toString n
  | .pbool b => if b then "True" else "False"
  | .pnull => "None"
  | .pobj f => "\x7b" ++ pyReprFields f ++ "\x7d"
  | .plist l => "[" ++ pyReprItems l ++ "]"

/-- Python repr() of a value. -/
def pyRepr : PyVal → String
  | .pstr s => "\x27" ++ s ++ "\x27"
  | .pint n => toString n
  | .pbool b => if b then "True" else "False"
  | .pnull => "None"
  | .pobj f => "\x7b" ++ pyReprFields f ++ "\x7d"
  | .plist l => "[" ++ pyReprItems l ++ "]"

def pyReprFields : List (String × PyVal) → String
  | [] => ""
  | [kv] => "\x27" ++ kv.1 ++ "\x27: " ++ pyRepr kv.2
  | kv :: rest => "\x27" ++ kv.1 ++ "\x27: " ++ pyRepr kv.2 ++ ", " ++ pyReprFields rest

def pyReprItems : List PyVal → String
  | [] => ""
  | [v] => pyRepr v
  | v :: rest => pyRepr v ++ ", " ++ pyReprItems rest
end

/-- ASCII whitespace, the characters Python str.strip() removes for the
ASCII inputs this system handles. -/
def isWsChar (c : Char) : Bool :=
  c == ' ' || c == '\t' || c == '\n' || c == '\r' || c == '\x0b' || c == '\x0c'

/-- Python s.strip(): drop whitespace from both ends. -/
def pystrip (s : String) : String :=
  ⟨((s.data.dropWhile isWsChar).reverse.dropWhile isWsChar).reverse⟩

/-- Python s.upper() on the ASCII range. -/
def upChar (c : Char) : Char :=
  if 'a' ≤ c && c ≤ 'z' then Char.ofNat (c.toNat - 32) else c

def upperStr (s : String) : String := ⟨s.data.map upChar⟩

/-- Python s.lower() on the ASCII range. -/
def lowChar (c : Char) : Char :=
  if 'A' ≤ c && c ≤ 'Z' then Char.ofNat (c.toNat + 32) else c

def lowerStr (s : String) : String := ⟨s.data.map lowChar⟩

/-- Python s.endswith(t). -/
def strEndsWith (s t : String) : Bool := t.data.isSuffixOf s.data

/-- Python s.replace(old, new) for a one-character old. -/
def strReplaceChar (oldc newc : Char) (s : String) : String :=
  ⟨s.data.map (fun c => if c == oldc then newc else c)⟩

/-- Python s.replace(old, new) for a nonempty old: fuelled scan (fuel at
least the length of the scanned list makes it total and exact). -/
def replaceFuel (pat rep : List Char) : Nat → List Char → List Char
  | _, [] => []
  | 0, l => l
  | fuel+1, c :: cs =>
    if pat.isPrefixOf (c :: cs) then rep ++ replaceFuel pat rep fuel ((c :: cs).drop pat.length)
    else c :: replaceFuel pat rep fuel cs

def strReplace (s pat rep : String) : String :=
  ⟨replaceFuel pat.data rep.data s.data.length s.data⟩

/-- Lexicographic comparison of strings by code point, as Python compares
strings (total: equal strings compare le both ways). -/
def listCharLe : List Char → List Char → Bool
  | [], _ => true
  | _ :: _, [] => false
  | a :: as, b :: bs =>
    if a.toNat < b.toNat then true
    else if b.toNat < a.toNat then false
    else listCharLe as bs

def strLe (s t : String) : Bool := listCharLe s.data t.data

/-- Python v.strip() on a value: succeeds on strings, raises AttributeError
on any non-string (strip is applied by the source after an `or` chain). -/
def pyStrip : PyVal → Except PyExc String
  | .pstr s => .ok (pystrip s)
  | _ => .error (.attributeError "strip")

/-- Python substring test `needle in hay`. -/
def containsSub (hay needle : String) : Bool :=
  hay.data.tails.any (fun t => needle.data.isPrefixOf t)

/-- Stable insertion of x into a sorted list: x goes after every element
le-below-or-equal to it, matching the placement a stable sort gives. -/
def insertLe {α : Type} (le : α → α → Bool) (x : α) : List α → List α
  | [] => [x]
  | y :: ys => if le y x then y :: insertLe le x ys else x :: y :: ys

/-- Stable sort by the boolean order le, as Python list.sort()/sorted()
(stable, ascending by the key order).  A stable sort is extensionally
determined by le, so this insertion sort embeds CPython timsort. -/
def stableSort {α : Type} (le : α → α → Bool) (l : List α) : List α :=
  l.foldl (fun acc x => insertLe le x acc) []

/-- A job file in the outbox directory: its filename stem (the name minus
the ".json" suffix, which glob("*.json") guarantees) and its mtime. -/
structure DirEntry where
  stem : String
  mtime : Nat
deriving DecidableEq

/-- The full filename of a pending job file. -/
def jsonName (stem : String) : String := stem ++ ".json"

/-- A stem with no dot in it (Path.stem of a simple job filename). -/
def dotFree (s : String) : Prop := ('.' : Char) ∉ s.data

instance (s : String) : Decidable (dotFree s) := by
  unfold dotFree; infer_instance

namespace OutboxRunner

/-- The terminal statuses tools/outbox_runner.py passes to move_to_done:
handlers return "OK"/"FAILED"/"BLOCKED" and the unknown-type and exception
paths use "FAILED". -/
inductive Status where
  | OK
  | FAILED
  | BLOCKED
deriving DecidableEq

def Status.str : Status → String
  | .OK => "OK"
  | .FAILED => "FAILED"
  | .BLOCKED => "BLOCKED"

/-- Sort key of list_jobs_fifo: (st_mtime, p.name), lexicographically. -/
def fifoLe (a b : DirEntry) : Bool :=
  decide (a.mtime < b.mtime) || (decide (a.mtime = b.mtime) && strLe (jsonName a.stem) (jsonName b.stem))

/-- list_jobs_fifo: the *.json files of the outbox sorted by (mtime, name);
an absent directory is the empty list. -/
def list_jobs_fifo (entries : List DirEntry) : List DirEntry :=
  stableSort fifoLe entries

/-- The terminal filename move_to_done builds. -/
def doneName (stem : String) (status : Status) (ts : String) : String :=
  stem ++ "." ++ status.str ++ "." ++ ts ++ ".json"

/-- The two directories of the job store: pending (outbox) holds job files,
done holds terminal files (their names; content is the copied job text). -/
structure FsState where
  pending : List DirEntry
  done : List String
deriving DecidableEq

/-- Writing a file into a directory: overwrites the file of that name if
present, else creates it. -/
def insertFile (n : String) (dir : List String) : List String :=
  if n ∈ dir then dir else dir ++ [n]

/-- move_to_done: write the job text to DONE_DIR under the status-stamped
name, then unlink the source from the outbox. -/
def move_to_done (st : FsState) (j : DirEntry) (status : Status) (ts : String) : FsState :=
  { pending := st.pending.filter (fun e => e.stem != j.stem)
    done := insertFile (doneName j.stem status ts) st.done }

/-- The per-job loop body of main folded over a list of picked jobs: every
picked job is handed to its handler (or the unknown-type / exception path)
and then moved to done with the resulting status. -/
def processList (L : List DirEntry) (st : FsState) (o : String → Status) (ts : String) : FsState :=
  L.foldl (fun s j => move_to_done s j (o j.stem) ts) st

/-- One tick of main: pick the FIFO list, truncate to MAX_JOBS_PER_RUN, and
process each picked job.  The handler outcome (including the exception
path, which also ends in move_to_done with FAILED) is the oracle o. -/
def runTick (st : FsState) (maxJobs : Nat) (o : String → Status) (ts : String) : FsState :=
  processList ((list_jobs_fifo st.pending).take maxJobs) st o ts

/-- The stems of the job files currently pending. -/
def pendingStems (st : FsState) : List String := st.pending.map DirEntry.stem

/-- Whether a done-directory filename is the terminal file of the job with
the given stem for this tick (any of the three statuses the runner emits). -/
def isTerminalOf (stem ts n : String) : Bool :=
  n == doneName stem .OK ts || n == doneName stem .FAILED ts || n == doneName stem .BLOCKED ts

end OutboxRunner

namespace TaskRouter

/-- worker/task_router.py _list_jobs_fifo: the .json files of the outbox
sorted by mtime only (files.sort(key=lambda x: x.stat().st_mtime)); with
equal mtimes the stable sort keeps directory-iteration order, there is no
name tiebreak. -/
def list_jobs_fifo_mtime (entries : List DirEntry) : List DirEntry :=
  stableSort (fun a b => decide (a.mtime ≤ b.mtime)) entries

/-- Job.id_hint: the filename stem with dots replaced by underscores. -/
def id_hint (stem : String) : String := strReplaceChar '.' '_' stem

/-- The terminal filename _mark_done builds from id_hint, the status (with
spaces replaced by underscores) and the compact timestamp. -/
def mark_done_name (idHint status ts : String) : String :=
  idHint ++ "." ++ (strReplaceChar ' ' '_' status) ++ "." ++ ts ++ ".json"

/-- main(): iterates the FIFO list, breaking once count reaches the
MAX_JOBS_PER_RUN cap; each iteration (including ones whose process_one
crashed and were salvaged) bumps count, and main returns 0 on every path;
the module entry wrapper additionally forces exit 0 if main itself raises.
Result: (number of loop iterations, exit code). -/
def mainReport (jobs : List DirEntry) (maxJobs : Nat) : Nat × Nat :=
  ((jobs.take maxJobs).length, 0)

end TaskRouter

namespace JobRunner

/-- A job file as worker/job_runner.py sees it: its filename and the
status field of the JSON record it holds. -/
structure JFile where
  name : String
  status : String
deriving DecidableEq

/-- list_outbox_jobs: the .json files of the outbox sorted by filename
only (files.sort()). -/
def list_outbox_jobs (files : List JFile) : List JFile :=
  stableSort (fun a b => strLe a.name b.name)
    (files.filter (fun f => strEndsWith f.name ".json"))

/-- One tick of main(): run_job rewrites each picked job file in place
(status started then completed, or failed via the exception handler in
main); no job file is ever moved out of or unlinked from the outbox
directory.  The llm oracle says whether run_job succeeds for a file. -/
def run_tick (files : List JFile) (maxJobs : Nat) (llmOk : String → Bool) : List JFile :=
  let toRun := (list_outbox_jobs files).take (max 1 maxJobs)
  files.map (fun f =>
    if (toRun.map JFile.name).contains f.name then
      { f with status := if llmOk f.name then "completed" else "failed" }
    else f)

end JobRunner

namespace GatewayRouter

/-- ida-mcp-gateway/job_router.py _norm: str(s).strip() for a present
value, "" when dict.get returned None (absent key or JSON null). -/
def norm : Option PyVal → String
  | none => ""
  | some .pnull => ""
  | some v => pystrip (pyStr v)

/-- _detect_job_type: first nonempty of the explicit fields job_type,
task, type (normalized und uppercased); else a substring match over the
identifier/path hint fields; else the empty string. -/
def detect_job_type (job : Jmap) : String :=
  let cands := [jget job "job_type", jget job "task", jget job "type"]
  match (cands.map norm).find? (fun v => v != "") with
  | some v => upperStr v
  | none =>
    let hints := lowerStr (String.intercalate " "
      [norm (jget job "job_id"), norm (jget job "id"), norm (jget job "source"),
       norm (jget job "file"), norm (jget job "path"), norm (jget job "filename")])
    if containsSub hints "roi_scan" || containsSub hints "roi-scan" || containsSub hints "roiscan" then
      "ROI_SCAN"
    else ""

/-- The dict dispatch returns (flattened: details.* are the fields of the
nested details dict). -/
structure GResult where
  job_id : PyVal
  job_type : Option String
  status : String
  reason : Option String
  details_type : Option String
  details_expected_keys_any_of : List String
  details_supported : List String

/-- dispatch(job, needs): route ROI_SCAN to its handler, otherwise return
the structured unknown-type NEEDS_INPUT result; a total function, no
exception path.  The ROI_SCAN handler is a parameter (in the source it is
the imported handle_roi_scan). -/
def dispatch (handler : Jmap → Jmap → GResult) (job needs : Jmap) : GResult :=
  let jt := detect_job_type job
  if jt == "ROI_SCAN" then handler job needs
  else
    { job_id := (jget job "job_id").getD (.pstr "unknown")
      job_type := if jt == "" then none else some jt
      status := "NEEDS_INPUT"
      reason := some "Unknown job type"
      details_type := if jt == "" then none else some jt
      details_expected_keys_any_of := ["job_type", "task", "type"]
      details_supported := ["ROI_SCAN"] }

end GatewayRouter

namespace ToolsRouter

/-- The handler values of the registry in tools/job_router.py. -/
inductive Handler where
  | handle_roi_scan
deriving DecidableEq

/-- The payload of the ValueError route_job raises for an unknown type. -/
inductive ValueErrorInfo where
  | unknownJobType (given : String) (supported : List String)
deriving DecidableEq

def SUPPORTED_JOB_TYPES : List (String × Handler) :=
  [("ROI_SCAN", .handle_roi_scan)]

/-- route_job: look the type up in the registry and raise ValueError (the
error side of Except) when it is not registered. -/
def route_job (job_type : String) : Except ValueErrorInfo Handler :=
  match SUPPORTED_JOB_TYPES.find? (fun kv => kv.1 == job_type) with
  | some kv => .ok kv.2
  | none => .error (.unknownJobType job_type (SUPPORTED_JOB_TYPES.map (·.1)))

end ToolsRouter

namespace RootRouter

/-- The dict the top-level job_router.py dispatch returns on the unknown
path: status FAILED, a reason naming the type, and no supported list. -/
structure RResult where
  job_id : PyVal
  job_type : String
  status : String
  reason : String

/-- The type tag dispatch computes: (job.get("job_type") or
"").strip().upper().  strip() on a truthy non-string raises
AttributeError, hence Except. -/
def job_type_of (job : Jmap) : Except PyExc String := do
  let s ← pyStrip (pyOr (getOrNull job "job_type") (.pstr ""))
  return upperStr s

/-- dispatch(job, needs): on ROI_SCAN call the handler, else return the
FAILED dict (which lists no supported types). -/
def dispatch (handler : Jmap → Jmap → RResult) (job needs : Jmap) : Except PyExc RResult := do
  let jt ← job_type_of job
  if jt == "ROI_SCAN" then
    return handler job needs
  else
    return { job_id := (jget job "job_id").getD (.pstr "unknown")
             job_type := jt
             status := "FAILED"
             reason := "Unknown job type: " ++ jt }

end RootRouter

namespace OutboxWorker

/-- worker/outbox_worker.py pick_job_type: first of the keys type,
job_type, kind, category holding a nonblank string (stripped), else the
default general_insight. -/
def pick_job_type (job : Jmap) : String :=
  match ["type", "job_type", "kind", "category"].findSome? (fun k =>
    match jget job k with
    | some (.pstr v) => if pystrip v != "" then some (pystrip v) else none
    | _ => none) with
  | some v => v
  | none => "general_insight"

/-- What json.load did to one job file of the tick. -/
inductive JobParse where
  | ok (job : Jmap)
  | badJson (err : String)

/-- The outcome of one tick of main(). -/
structure TickReport where
  processed : Nat
  failed : Nat
  exit : Nat

/-- main(): per job file, a JSON parse failure bumps failed and skips the
file; a parsed job is processed (handler/OpenAI outcome does not matter to
the counters) and bumps processed; the exit code is 0 when failed == 0 and
2 otherwise (the no-jobs early return is the failed = 0 case). -/
def mainTick (files : List (String × JobParse)) : TickReport :=
  let counts := files.foldl
    (fun (r : Nat × Nat) f =>
      match f.2 with
      | .badJson _ => (r.1, r.2 + 1)
      | .ok _ => (r.1 + 1, r.2))
    (0, 0)
  { processed := counts.1
    failed := counts.2
    exit := if counts.2 == 0 then 0 else 2 }

end OutboxWorker

namespace RoiScanTasks

/-- The RoiScanResult dataclass of worker/tasks/roi_scan.py; needs is the
optional needs dict. -/
structure RoiScanResult where
  ok : Bool
  markdown : String
  needs : Option Jmap
  error : Option String

/-- The needs dict run_roi_scan returns when the goal is missing. -/
def goalNeeds : Jmap :=
  [("missing", .plist [.pstr "goal"]),
   ("hint", .pstr "Legg inn goal/mål i ROI_SCAN-jobben (hva skal IDA levere)."),
   ("example_job", .pobj
     [("job_type", .pstr "ROI_SCAN"),
      ("goal", .pstr "Lag ROI-plan for API-resale bootstrap som kan gi inntekt raskt"),
      ("timeframe", .pstr "48 timer"),
      ("constraints", .pstr "maks 2 timers manuelt arbeid per dag")])]

/-- The needs dict run_roi_scan returns when the OpenAI call fails. -/
def openaiNeeds (err : String) : Jmap :=
  [("missing", .plist [.pstr "openai_api_working"]),
   ("hint", .pstr "OpenAI-kallet feilet. Sjekk OPENAI_API_KEY/OPENAI_MODEL i repo secrets."),
   ("error", .pstr err)]

/-- run_roi_scan: goal is (job.get("goal") or job.get("mål") or
job.get("objective") or "").strip(); an empty goal returns the
missing-goal result with needs.missing = ["goal"].  Otherwise the single
OpenAI call (the oracle triple (ok, markdown, error)) decides between the
API-failure needs result and the ok markdown result with its header guard
and footer. -/
def run_roi_scan (openai : Bool × String × String) (ts : String) (job : Jmap) :
    Except PyExc RoiScanResult := do
  let goal ← pyStrip (pyOr (getOrNull job "goal")
    (pyOr (getOrNull job "mål") (pyOr (getOrNull job "objective") (.pstr ""))))
  if goal == "" then
    return { ok := false, markdown := "", needs := some goalNeeds,
             error := some "Missing required field: goal" }
  else
    let (ok, md, err) := openai
    if !ok then
      return { ok := false, markdown := "", needs := some (openaiNeeds err), error := some err }
    else
      let md := if containsSub md "## ROI PLAN" then md else "## ROI PLAN (IDA)\n\n" ++ md
      let md := md ++ "\n\n---\nGenerated: " ++ ts ++ " (UTC)\nJob: ROI_SCAN\n"
      return { ok := true, markdown := md, needs := none, error := none }

end RoiScanTasks

namespace RoiScanWorker

/-- The dict worker/roi_scan.py run() returns (the success shape has no
error/failed_path keys, the except shape no deliverables). -/
structure RunResult where
  ok : Bool
  task : String
  job_id : String
  time : String
  deliverables : List (String × String)
  error : Option String
  failed_path : Option String

/-- run(job): job_id is str(job.get("job_id") or job.get("id") or
"unknown"); _build_roi_plan_md assembles the plan markdown from
job["input"] with a default for every field (goal included) and run
writes it to agent_results/ROI_PLAN.md, returning the ok dict.  There is
no missing-input check anywhere on this path; the except branch only
catches I/O failures, which the embedding (a pure filesystem) does not
produce.  Directories are the defaults of RoiConfig. -/
def run (now : String) (job : Jmap) : RunResult :=
  let job_id := pyStr (pyOr (getOrNull job "job_id") (pyOr (getOrNull job "id") (.pstr "unknown")))
  { ok := true
    task := "ROI_SCAN"
    job_id := job_id
    time := now
    deliverables := [("agent_results/ROI_PLAN.md", "agent_results/ROI_PLAN.md"),
                     ("ops/logs/AUTORUN_LOG.md", "ops/logs/AUTORUN_LOG.md")]
    error := none
    failed_path := none }

end RoiScanWorker

namespace PublishResults

/-- worker/publish_results.py _extract_job_id: first of the keys job_id,
id, job, name, file holding a nonblank string (stripped), else a
job-<timestamp> fallback. -/
def extract_job_id (result : Jmap) (nowCompact : String) : String :=
  match ["job_id", "id", "job", "name", "file"].findSome? (fun k =>
    match jget result k with
    | some (.pstr v) => if pystrip v != "" then some (pystrip v) else none
    | _ => none) with
  | some v => v
  | none => "job-" ++ nowCompact

/-- _extract_status: first of status, state, result_status holding a
nonblank string (stripped, lowercased); else fail when an error-ish key is
truthy, else ok. -/
def extract_status (result : Jmap) : String :=
  match ["status", "state", "result_status"].findSome? (fun k =>
    match jget result k with
    | some (.pstr v) => if pystrip v != "" then some (lowerStr (pystrip v)) else none
    | _ => none) with
  | some v => v
  | none =>
    if truthy (getOrNull result "error") || truthy (getOrNull result "exception")
        || truthy (getOrNull result "traceback") then "fail"
    else "ok"

/-- _extract_reason: first of reason, message, error, exception holding a
nonblank string, stripped, newlines flattened and cut to 160 chars. -/
def extract_reason (result : Jmap) : Option String :=
  (["reason", "message", "error", "exception"].findSome? (fun k =>
    match jget result k with
    | some (.pstr v) => if pystrip v != "" then some (pystrip v) else none
    | _ => none)).map (fun v => (⟨(strReplaceChar '\n' ' ' v).data.take 160⟩ : String))

/-- The tokens value of the daily line: usage.total_tokens when it is an
int, else prompt_tokens + completion_tokens when both are ints.  The
usage dict is the first of the key paths usage, meta.usage,
provider.usage, openai.usage that resolves to a dict. -/
def extract_tokens (result : Jmap) : Option Int :=
  let usage :=
    [["usage"], ["meta", "usage"], ["provider", "usage"], ["openai", "usage"]].findSome?
      (fun path =>
        match path.foldl
          (fun (cur : Option PyVal) k =>
            match cur with
            | some (.pobj f) => jget f k
            | _ => none)
          (some (.pobj result)) with
        | some (.pobj f) => some f
        | _ => none)
  match usage with
  | none => none
  | some u =>
    match jget u "total_tokens" with
    | some (.pint t) => some t
    | _ =>
      match jget u "prompt_tokens", jget u "completion_tokens" with
      | some (.pint p), some (.pint c) => some (p + c)
      | _, _ => none

/-- _extract_cost: first of cost_usd, meta.cost_usd, billing.cost_usd that
_safe_float accepts.  Floats are not part of the embedding, so the value
is kept as the raw PyVal; no claim depends on the cost text. -/
def extract_cost (result : Jmap) : Option PyVal :=
  [jget result "cost_usd",
   (match jget result "meta" with | some (.pobj m) => jget m "cost_usd" | _ => none),
   (match jget result "billing" with | some (.pobj b) => jget b "cost_usd" | _ => none)].findSome?
    (fun c => match c with
      | some (.pint n) => some (.pint n)
      | _ => none)

/-- _format_daily_line (float formatting of the cost approximated by
pyStr, see extract_cost). -/
def format_daily_line (hhmm jobId status : String) (tokens : Option Int)
    (cost : Option PyVal) (reason : Option String) : String :=
  let parts := ["[" ++ hhmm ++ "] job=" ++ jobId, "status=" ++ status]
  let parts := parts ++ (match tokens with | some t => ["tokens=" ++ toString t] | none => [])
  let parts := parts ++ (match cost with | some c => ["cost=$" ++ pyStr c] | none => [])
  let parts := parts ++
    (match reason with
     | some r => if status != "ok" then ["reason=" ++ r] else []
     | none => [])
  String.intercalate "  " parts ++ "\n"

/-- The results directory plus the trace of sink write operations the
publisher has performed (one entry per written path, in order). -/
structure PubState where
  files : List (String × String)
  writes : List String

/-- Writing a file: replace the content under an existing name or add it. -/
def upsertFile (name content : String) (files : List (String × String)) :
    List (String × String) :=
  if files.any (fun kv => kv.1 == name) then
    files.map (fun kv => if kv.1 == name then (name, content) else kv)
  else files ++ [(name, content)]

/-- Appending a line to a file (the daily log open("a")). -/
def appendToFile (name content : String) (files : List (String × String)) :
    List (String × String) :=
  if files.any (fun kv => kv.1 == name) then
    files.map (fun kv => if kv.1 == name then (kv.1, kv.2 ++ content) else kv)
  else files ++ [(name, content)]

/-- The result filename: the hint or job_id.result.json, forced to end in
.result.json. -/
def out_name (hint : Option String) (jobId : String) : String :=
  let n := hint.getD (jobId ++ ".result.json")
  if strEndsWith n ".result.json" then n else (strReplace n ".json" "") ++ ".result.json"

/-- The daily log filename for a date. -/
def dailyName (day : String) : String := "DAILY_" ++ day ++ ".md"

/-- write_result_output: on every call it (1) writes the rendered result
(json.dump; rendered here by the canonical single-line pyRepr, since no
claim depends on the serialization text) to the result path via
tmp-then-replace — one sink write — and
(2) appends the formatted line to the daily markdown log — a second
write.  No state is consulted before writing: there is no fingerprint
map anywhere in the module.  Returns the new state and the two paths. -/
def write_result_output (result : Jmap) (filename_hint : Option String)
    (nowCompact day hhmm : String) (st : PubState) : PubState × (String × String) :=
  let jobId := extract_job_id result nowCompact
  let outName := out_name filename_hint jobId
  let files := upsertFile outName (pyRepr (.pobj result)) st.files
  let status := extract_status result
  let tokens := extract_tokens result
  let cost := extract_cost result
  let reason := extract_reason result
  let daily := dailyName day
  let line := format_daily_line hhmm jobId status tokens cost reason
  let files := appendToFile daily line files
  ({ files := files, writes := st.writes ++ [outName, daily] }, (outName, daily))

end PublishResults

namespace JobSchemaTools

/-- The Job dataclass of tools/job_schema.py. -/
structure Job where
  id : String
  type : String
  payload : Jmap
  output : Option Jmap
  meta : Option Jmap

def REQUIRED_TOP_KEYS : List String := ["id", "type", "payload"]
def OPTIONAL_TOP_KEYS : List String := ["output", "meta"]

/-- Whether a value is a Python dict. -/
def isDict : PyVal → Bool
  | .pobj _ => true
  | _ => false

/-- The keys of a dict. -/
def pyKeys (f : Jmap) : List String := f.map (·.1)

/-- Python raw[k]: KeyError when the key is absent. -/
def pyIndex (f : Jmap) (k : String) : Except PyExc PyVal :=
  match jget f k with
  | some v => .ok v
  | none => .error (.keyError k)

/-- A call of the form `_assert(cond, msg)` inside parse_job.  Because the
statement on the output.path branch of parse_job assigns to the name
_assert, Python treats _assert as a local variable of the whole function
body; the callee name is evaluated before the arguments, so a call made
while the local is still unassigned raises UnboundLocalError.  The only
call site where the local IS assigned (to the value of output["path"])
has the undefined name _R as its first argument, so evaluating its
arguments raises NameError. -/
def assertCall (localAssert : Option PyVal) (cond : Bool) (msg : String) : Except PyExc Unit :=
  match localAssert with
  | none => .error (.unboundLocalError "_assert")
  | some _ => .error (.nameError "_R")

/-- parse_job, statement by statement.  Every `_assert(...)` line is an
assertCall carrying the binding state of the local name _assert at that
line (none everywhere except right after the rebinding on the output.path
branch).  Since the first statement already reads the unassigned local,
the whole body evaluates to UnboundLocalError for every input; the later
statements are retained as the dead code they are. -/
def parse_job (raw : PyVal) : Except PyExc Job := do
  assertCall none (isDict raw) "Job must be a JSON object"
  match raw with
  | .pobj fields =>
    let keys := pyKeys fields
    let missing := REQUIRED_TOP_KEYS.filter (fun k => !(keys.contains k))
    assertCall none missing.isEmpty "Missing required keys"
    let unknown := keys.filter (fun k => !((REQUIRED_TOP_KEYS ++ OPTIONAL_TOP_KEYS).contains k))
    assertCall none unknown.isEmpty "Unknown keys not allowed"
    let job_id ← pyIndex fields "id"
    let job_type ← pyIndex fields "type"
    let payload ← pyIndex fields "payload"
    assertCall none (match job_id with | .pstr s => pystrip s != "" | _ => false)
      "id must be a non-empty string"
    assertCall none (match job_type with | .pstr s => pystrip s != "" | _ => false)
      "type must be a non-empty string"
    assertCall none (isDict payload) "payload must be an object"
    let output := jget fields "output"
    let meta := jget fields "meta"
    (match output with
     | some o => do
        assertCall none (isDict o) "output must be an object if present"
        (match o with
         | .pobj of =>
            if (pyKeys of).contains "path" then do
              let rebound ← pyIndex of "path"
              assertCall (some rebound) false "output.path must be a non-empty string"
            else pure ()
         | _ => pure ())
     | none => pure ())
    (match meta with
     | some m => assertCall none (isDict m) "meta must be an object if present"
     | none => pure ())
    match job_id, job_type, payload with
    | .pstr i, .pstr t, .pobj p =>
      return { id := pystrip i, type := pystrip t, payload := p,
               output := (match output with | some (.pobj o) => some o | _ => none),
               meta := (match meta with | some (.pobj m) => some m | _ => none) }
    | _, _, _ => .error (.unboundLocalError "_assert")
  | _ => .error (.unboundLocalError "_assert")

/-- Whether a raw value is a dict holding all of id, type, payload. -/
def requiredKeysPresent (raw : PyVal) : Bool :=
  match raw with
  | .pobj f => REQUIRED_TOP_KEYS.all (fun k => (pyKeys f).contains k)
  | _ => false

/-- Whether a raw value has an output dict that itself has a path key. -/
def outputHasPath (raw : PyVal) : Bool :=
  match raw with
  | .pobj f =>
    match jget f "output" with
    | some (.pobj o) => (pyKeys o).contains "path"
    | _ => false
  | _ => false

end JobSchemaTools

/-- Written from the claim wording for C7: resolution as an explicit
if-chain — job_type, then task, then type, each normalized (str, strip)
and uppercased when nonempty; then the identifier/path-hint substring
match for the ROI_SCAN spellings; else the empty string. -/
def detectSpecChain (job : Jmap) : String :=
  if GatewayRouter.norm (jget job "job_type") != "" then
    upperStr (GatewayRouter.norm (jget job "job_type"))
  else if GatewayRouter.norm (jget job "task") != "" then
    upperStr (GatewayRouter.norm (jget job "task"))
  else if GatewayRouter.norm (jget job "type") != "" then
    upperStr (GatewayRouter.norm (jget job "type"))
  else
    let hints := lowerStr (String.intercalate " "
      [GatewayRouter.norm (jget job "job_id"), GatewayRouter.norm (jget job "id"),
       GatewayRouter.norm (jget job "source"), GatewayRouter.norm (jget job "file"),
       GatewayRouter.norm (jget job "path"), GatewayRouter.norm (jget job "filename")])
    if containsSub hints "roi_scan" || containsSub hints "roi-scan" || containsSub hints "roiscan" then
      "ROI_SCAN"
    else ""

/-- A key value that is a nonblank string, stripped. -/
def nonblankStr (v : Option PyVal) : Option String :=
  match v with
  | some (.pstr s) => if pystrip s != "" then some (pystrip s) else none
  | _ => none

/-- Written from the claim wording for C7, outbox_worker variant: first of
type, job_type, kind, category holding a nonblank string, stripped but
not otherwise normalized; else the default general_insight. -/
def pickSpecChain (job : Jmap) : String :=
  match nonblankStr (jget job "type") with
  | some v => v
  | none =>
    match nonblankStr (jget job "job_type") with
    | some v => v
    | none =>
      match nonblankStr (jget job "kind") with
      | some v => v
      | none =>
        match nonblankStr (jget job "category") with
        | some v => v
        | none => "general_insight"

/-- Written from the claim wording for C5: sorted by the pair
(modification time, then name). -/
def sortedByMtimeName (l : List DirEntry) : Prop :=
  l.Pairwise (fun a b =>
    a.mtime < b.mtime ∨ (a.mtime = b.mtime ∧ strLe (jsonName a.stem) (jsonName b.stem) = true))

/-- Whether json.load succeeded for a job file of the outbox_worker tick. -/
def OutboxWorker.JobParse.isOk : OutboxWorker.JobParse → Bool
  | .ok _ => true
  | .badJson _ => false

/-- A value over which the goal-selection `or` chain of run_roi_scan falls
through to the needs branch: absent (None), or a string that strips to
empty. -/
def emptyishV : PyVal → Bool
  | .pnull => true
  | .pstr s => pystrip s == ""
  | _ => false

section SortLemmas

variable {α : Type} {le : α → α → Bool}

theorem insertLe_perm (x : α) (l : List α) : (insertLe le x l).Perm (x :: l) := by
  induction l with
  | nil => simp [insertLe]
  | cons y ys ih =>
    by_cases h : le y x
    · simp only [insertLe, if_pos h]
      exact ((ih.cons y).trans (List.Perm.swap x y ys))
    · simp [insertLe, if_neg h]

theorem stableSort_perm (l : List α) : (stableSort le l).Perm l := by
  suffices h : ∀ (l acc : List α),
      (l.foldl (fun a x => insertLe le x a) acc).Perm (acc ++ l) by
    simpa using h l []
  intro l
  induction l with
  | nil => simp
  | cons x xs ih =>
    intro acc
    refine (ih (insertLe le x acc)).trans ?_
    refine (((insertLe_perm x acc).append_right xs).trans ?_)
    exact (List.perm_middle).symm

theorem pairwise_insertLe
    (htot : ∀ a b : α, le a b || le b a)
    (htr : ∀ a b c : α, le a b → le b c → le a c)
    {x : α} {l : List α} (h : l.Pairwise (fun a b => le a b = true)) :
    (insertLe le x l).Pairwise (fun a b => le a b = true) := by
  induction l with
  | nil => simp [insertLe]
  | cons y ys ih =>
    rcases List.pairwise_cons.mp h with ⟨hy, hys⟩
    by_cases hle : le y x
    · simp only [insertLe, if_pos hle]
      refine List.pairwise_cons.mpr ⟨?_, ih hys⟩
      intro z hz
      rcases List.mem_cons.mp ((insertLe_perm x ys).mem_iff.mp hz) with hz | hz
      · subst hz; exact hle
      · exact hy z hz
    · have hxy : le x y := by
        have := htot y x
        simp [hle] at this
        exact this
      simp only [insertLe, if_neg hle]
      refine List.pairwise_cons.mpr ⟨?_, h⟩
      intro z hz
      rcases List.mem_cons.mp hz with hz | hz
      · subst hz; exact hxy
      · exact htr x y z hxy (hy z hz)

theorem pairwise_stableSort
    (htot : ∀ a b : α, le a b || le b a)
    (htr : ∀ a b c : α, le a b → le b c → le a c)
    (l : List α) :
    (stableSort le l).Pairwise (fun a b => le a b = true) := by
  suffices h : ∀ (l acc : List α), acc.Pairwise (fun a b => le a b = true) →
      (l.foldl (fun a x => insertLe le x a) acc).Pairwise (fun a b => le a b = true) by
    exact h l [] (by simp)
  intro l
  induction l with
  | nil => intro acc hacc; simpa using hacc
  | cons x xs ih =>
    intro acc hacc
    exact ih _ (pairwise_insertLe htot htr hacc)

end SortLemmas

section CharOrderLemmas

theorem listCharLe_total : ∀ a b : List Char, listCharLe a b || listCharLe b a := by
  intro a
  induction a with
  | nil => intro b; simp [listCharLe]
  | cons c as ih =>
    intro b
    cases b with
    | nil => simp [listCharLe]
    | cons d bs =>
      by_cases h1 : c.toNat < d.toNat
      · simp [listCharLe, h1]
      · by_cases h2 : d.toNat < c.toNat
        · simp [listCharLe, h1, h2]
        · simpa [listCharLe, h1, h2] using ih bs

theorem listCharLe_trans : ∀ a b c : List Char, listCharLe a b → listCharLe b c → listCharLe a c := by
  intro a
  induction a with
  | nil => intro b c _ _; simp [listCharLe]
  | cons x as ih =>
    intro b c hab hbc
    cases b with
    | nil => simp [listCharLe] at hab
    | cons y bs =>
      cases c with
      | nil => simp [listCharLe] at hbc
      | cons z cs =>
        simp only [listCharLe] at hab hbc ⊢
        by_cases hxy : x.toNat < y.toNat <;> by_cases hyz : y.toNat < z.toNat
        · have : x.toNat < z.toNat := hxy.trans hyz
          simp [this]
        · simp only [if_neg hyz] at hbc
          by_cases hzy : z.toNat < y.toNat
          · simp [hzy] at hbc
          · have hyzeq : y.toNat = z.toNat := Nat.le_antisymm (Nat.not_lt.mp hzy) (Nat.not_lt.mp hyz)
            have : x.toNat < z.toNat := hyzeq ▸ hxy
            simp [this]
        · simp only [if_neg hxy] at hab
          by_cases hyx : y.toNat < x.toNat
          · simp [hyx] at hab
          · have hxyeq : x.toNat = y.toNat := Nat.le_antisymm (Nat.not_lt.mp hyx) (Nat.not_lt.mp hxy)
            have : x.toNat < z.toNat := hxyeq ▸ hyz
            simp [this]
        · simp only [if_neg hxy] at hab
          simp only [if_neg hyz] at hbc
          by_cases hyx : y.toNat < x.toNat
          · simp [hyx] at hab
          · by_cases hzy : z.toNat < y.toNat
            · simp [hzy] at hbc
            · have hxyeq : x.toNat = y.toNat := Nat.le_antisymm (Nat.not_lt.mp hyx) (Nat.not_lt.mp hxy)
              have hyzeq : y.toNat = z.toNat := Nat.le_antisymm (Nat.not_lt.mp hzy) (Nat.not_lt.mp hyz)
              have hxz : ¬ x.toNat < z.toNat := by omega
              have hzx : ¬ z.toNat < x.toNat := by omega
              simp only [if_neg hxz, if_neg hzx]
              simp only [if_neg hyx] at hab
              simp only [if_neg hzy] at hbc
              exact ih bs cs hab hbc

end CharOrderLemmas

section DotLemmas

theorem append_dot_inj :
    ∀ (a : List Char) (b r1 r2 : List Char), ('.' : Char) ∉ a → ('.' : Char) ∉ b →
      a ++ '.' :: r1 = b ++ '.' :: r2 → a = b ∧ r1 = r2 := by
  intro a
  induction a with
  | nil =>
    intro b r1 r2 _ hb h
    cases b with
    | nil => simpa using h
    | cons c bs =>
      simp only [List.nil_append, List.cons_append, List.cons.injEq] at h
      exact absurd (h.1 ▸ List.mem_cons_self c bs) (by simpa [← h.1] using hb)
  | cons c as ih =>
    intro b r1 r2 ha hb h
    cases b with
    | nil =>
      simp only [List.cons_append, List.nil_append, List.cons.injEq] at h
      exact absurd (h.1 ▸ List.mem_cons_self c as) (by simp [h.1] at ha ⊢)
    | cons d bs =>
      simp only [List.cons_append, List.cons.injEq] at h
      have ha' : ('.' : Char) ∉ as := fun hm => ha (List.mem_cons_of_mem c hm)
      have hb' : ('.' : Char) ∉ bs := fun hm => hb (List.mem_cons_of_mem d hm)
      rcases ih bs r1 r2 ha' hb' h.2 with ⟨h1, h2⟩
      exact ⟨by rw [h.1, h1], h2⟩

theorem string_dot_inj {s1 s2 t1 t2 : String}
    (h1 : dotFree s1) (h2 : dotFree s2)
    (h : s1 ++ "." ++ t1 = s2 ++ "." ++ t2) : s1 = s2 ∧ t1 = t2 := by
  have hd : s1.data ++ '.' :: t1.data = s2.data ++ '.' :: t2.data := by
    have := congrArg String.data h
    simpa [String.data_append] using this
  rcases append_dot_inj s1.data s2.data t1.data t2.data h1 h2 hd with ⟨ha, hb⟩
  exact ⟨String.ext ha, String.ext hb⟩

end DotLemmas

namespace OutboxRunner

theorem status_str_dotFree (s : Status) : dotFree s.str := by
  cases s <;> decide

theorem status_str_inj {a b : Status} (h : a.str = b.str) : a = b := by
  cases a <;> cases b <;> first | rfl | (exfalso; revert h; decide)

/-- doneName is determined by and determines the stem and the status, for
dot-free stems (the timestamp is fixed across one tick). -/
theorem doneName_inj {s1 s2 : String} {st1 st2 : Status} {ts : String}
    (h1 : dotFree s1) (h2 : dotFree s2)
    (h : doneName s1 st1 ts = doneName s2 st2 ts) : s1 = s2 ∧ st1 = st2 := by
  have h' : s1 ++ "." ++ (st1.str ++ "." ++ (ts ++ ".json"))
      = s2 ++ "." ++ (st2.str ++ "." ++ (ts ++ ".json")) := by
    simpa [doneName, String.append_assoc] using h
  rcases string_dot_inj h1 h2 h' with ⟨hs, hrest⟩
  rcases string_dot_inj (status_str_dotFree st1) (status_str_dotFree st2) hrest with ⟨hst, _⟩
  exact ⟨hs, status_str_inj hst⟩

end OutboxRunner

namespace OutboxRunner

/-- The terminal filename this tick gives the job with a given stem. -/
def termName (o : String → Status) (ts : String) (stem : String) : String :=
  doneName stem (o stem) ts

theorem mem_insertFile {n m : String} {d : List String} :
    n ∈ insertFile m d ↔ n ∈ d ∨ n = m := by
  unfold insertFile
  by_cases h : m ∈ d
  · simp only [if_pos h]
    constructor
    · exact Or.inl
    · rintro (hn | rfl)
      · exact hn
      · exact h
  · simp [if_neg h]

theorem processList_pending (L : List DirEntry) (st : FsState)
    (o : String → Status) (ts : String) :
    (processList L st o ts).pending
      = st.pending.filter (fun e => !((L.map DirEntry.stem).contains e.stem)) := by
  induction L generalizing st with
  | nil => simp [processList]
  | cons j L' ih =>
    have step : processList (j :: L') st o ts
        = processList L' (move_to_done st j (o j.stem) ts) o ts := rfl
    rw [step, ih]
    simp only [move_to_done, List.filter_filter]
    refine List.filter_congr ?_
    intro e _
    simp only [List.contains_cons, Bool.not_or, bne, Bool.and_comm]
    by_cases h : e.stem = j.stem <;> simp [h]

theorem processList_done (L : List DirEntry) (st : FsState)
    (o : String → Status) (ts : String) :
    (processList L st o ts).done
      = L.foldl (fun d j => insertFile (termName o ts j.stem) d) st.done := by
  induction L generalizing st with
  | nil => simp [processList]
  | cons j L' ih =>
    have step : processList (j :: L') st o ts
        = processList L' (move_to_done st j (o j.stem) ts) o ts := rfl
    rw [step, ih]
    rfl

theorem foldl_insertFile_eq_append (f : DirEntry → String) :
    ∀ (L : List DirEntry) (d : List String), (d ++ L.map f).Nodup →
      L.foldl (fun acc j => insertFile (f j) acc) d = d ++ L.map f := by
  intro L
  induction L with
  | nil => intro d _; simp
  | cons j L' ih =>
    intro d hnd
    have hnotmem : f j ∉ d := by
      rcases List.nodup_append.mp (by simpa using hnd) with ⟨_, _, hdisj⟩
      intro hmem
      exact hdisj hmem (List.mem_cons_self _ _)
    have hins : insertFile (f j) d = d ++ [f j] := by simp [insertFile, hnotmem]
    have hre : (d ++ [f j]) ++ L'.map f = d ++ (f j :: L'.map f) := by simp
    calc (L').foldl (fun acc j => insertFile (f j) acc) (insertFile (f j) d)
        = (L').foldl (fun acc j => insertFile (f j) acc) (d ++ [f j]) := by rw [hins]
      _ = (d ++ [f j]) ++ L'.map f := ih (d ++ [f j]) (by rw [hre]; simpa using hnd)
      _ = d ++ (j :: L').map f := by simpa using hre

end OutboxRunner

namespace OutboxRunner

theorem isTerminalOf_termName (o : String → Status) (ts : String)
    {s s' : String} (hs : dotFree s) (hs' : dotFree s') :
    isTerminalOf s ts (termName o ts s') = true ↔ s' = s := by
  constructor
  · intro h
    have h' : ((termName o ts s' == doneName s .OK ts) = true
        ∨ (termName o ts s' == doneName s .FAILED ts) = true)
        ∨ (termName o ts s' == doneName s .BLOCKED ts) = true := by
      simpa only [isTerminalOf, Bool.or_eq_true] using h
    rcases h' with (h' | h') | h' <;> exact (doneName_inj hs' hs (eq_of_beq h')).1
  · intro he
    subst he
    unfold isTerminalOf termName
    cases ho : o s' <;>
      simp only [beq_self_eq_true, Bool.true_or, Bool.or_true]

/-- C1: after one tick of tools/outbox_runner.py with a clean done directory,
any job that was pending before either is still pending with no terminal
file of this tick, or has left pending and has exactly one terminal file.
The hypotheses are the filesystem facts: stems in a directory are unique,
and the stem of a *.json job file contains no dot. -/
theorem tick_no_loss (st : FsState) (k : Nat) (o : String → Status) (ts : String)
    (j : DirEntry)
    (hnd : (pendingStems st).Nodup)
    (hdf : ∀ e ∈ st.pending, dotFree e.stem)
    (hd0 : st.done = [])
    (hj : j ∈ st.pending) :
    (j.stem ∈ pendingStems (runTick st k o ts)
      ∧ (runTick st k o ts).done.countP (fun n => isTerminalOf j.stem ts n) = 0)
    ∨ (j.stem ∉ pendingStems (runTick st k o ts)
      ∧ (runTick st k o ts).done.countP (fun n => isTerminalOf j.stem ts n) = 1) := by
  classical
  have hLsub : ∀ e ∈ (list_jobs_fifo st.pending).take k, e ∈ st.pending := by
    intro e he
    exact (stableSort_perm st.pending).mem_iff.mp (List.mem_of_mem_take he)
  have hsortnd : ((list_jobs_fifo st.pending).map DirEntry.stem).Nodup :=
    (((stableSort_perm st.pending).map DirEntry.stem).nodup_iff).mpr hnd
  have hLnd : (((list_jobs_fifo st.pending).take k).map DirEntry.stem).Nodup :=
    List.Nodup.sublist ((List.take_sublist k _).map DirEntry.stem) hsortnd
  set L := (list_jobs_fifo st.pending).take k with hLdef
  have hstem_inj := List.inj_on_of_nodup_map hLnd
  have hpend : (runTick st k o ts).pending
      = st.pending.filter (fun e => !((L.map DirEntry.stem).contains e.stem)) :=
    processList_pending L st o ts
  have htermnd : (L.map (fun e => termName o ts e.stem)).Nodup := by
    refine List.Nodup.map_on ?_ (List.Nodup.of_map DirEntry.stem hLnd)
    intro x hx y hy hxy
    have hsx : dotFree x.stem := hdf x (hLsub x hx)
    have hsy : dotFree y.stem := hdf y (hLsub y hy)
    have : x.stem = y.stem := (doneName_inj hsx hsy hxy).1
    exact hstem_inj hx hy this
  have hdone : (runTick st k o ts).done = L.map (fun e => termName o ts e.stem) := by
    have h1 : (runTick st k o ts).done
        = L.foldl (fun d e => insertFile (termName o ts e.stem) d) st.done :=
      processList_done L st o ts
    rw [h1, hd0]
    have := foldl_insertFile_eq_append (fun e => termName o ts e.stem) L []
      (by simpa using htermnd)
    simpa using this
  have hjd : dotFree j.stem := hdf j hj
  have key : ∀ e ∈ L, (isTerminalOf j.stem ts (termName o ts e.stem) = true ↔ e.stem = j.stem) := by
    intro e he
    exact isTerminalOf_termName o ts hjd (hdf e (hLsub e he))
  by_cases hpick : j.stem ∈ L.map DirEntry.stem
  · right
    constructor
    · intro hmem
      rw [pendingStems, hpend] at hmem
      rcases List.mem_map.mp hmem with ⟨e, he, hes⟩
      rcases List.mem_filter.mp he with ⟨_, hprede⟩
      rw [hes] at hprede
      simp only [Bool.not_eq_true', List.contains, List.elem_eq_mem,
        decide_eq_false_iff_not] at hprede
      exact hprede hpick
    · rw [hdone, List.countP_map]
      have hc : ((L.countP fun e => isTerminalOf j.stem ts (termName o ts e.stem)))
          = L.countP (fun e => e.stem == j.stem) := by
        refine List.countP_congr ?_
        intro e he
        simp only [beq_iff_eq]
        exact key e he
      rw [Function.comp_def, hc]
      have : L.countP (fun e => e.stem == j.stem) = (L.map DirEntry.stem).count j.stem := by
        rw [List.count_eq_countP, List.countP_map, Function.comp_def]
      rw [this]
      exact List.count_eq_one_of_mem hLnd hpick
  · left
    constructor
    · rw [pendingStems, hpend]
      refine List.mem_map.mpr ⟨j, List.mem_filter.mpr ⟨hj, ?_⟩, rfl⟩
      simp only [Bool.not_eq_true', List.contains, List.elem_eq_mem,
        decide_eq_false_iff_not]
      exact hpick
    · rw [hdone, List.countP_map]
      refine List.countP_eq_zero.mpr ?_
      intro e he h
      rw [Function.comp_def] at h
      have : e.stem = j.stem := (key e he).mp h
      exact hpick (List.mem_map.mpr ⟨e, he, this⟩)

end OutboxRunner

namespace OutboxRunner

/-- C6 (amended): one tick of tools/outbox_runner.py removes exactly the min(k, N) oldest
jobs in (mtime, name) order from the pending directory: the survivors are
(a permutation of) everything after the budget cutoff of the FIFO list,
so with k ≤ N exactly N - k jobs remain pending. -/
theorem tick_budget (st : FsState) (k : Nat) (o : String → Status) (ts : String)
    (hnd : (pendingStems st).Nodup) :
    (runTick st k o ts).pending.length = st.pending.length - k
    ∧ (runTick st k o ts).pending.Perm ((list_jobs_fifo st.pending).drop k) := by
  classical
  have hperm : (list_jobs_fifo st.pending).Perm st.pending := stableSort_perm _
  have hSnd : ((list_jobs_fifo st.pending).map DirEntry.stem).Nodup :=
    ((hperm.map DirEntry.stem).nodup_iff).mpr hnd
  have hpend : (runTick st k o ts).pending
      = st.pending.filter (fun e =>
          !((((list_jobs_fifo st.pending).take k).map DirEntry.stem).contains e.stem)) :=
    processList_pending _ _ _ _
  have hfilter_perm :
      (st.pending.filter (fun e =>
          !((((list_jobs_fifo st.pending).take k).map DirEntry.stem).contains e.stem))).Perm
        ((list_jobs_fifo st.pending).filter (fun e =>
          !((((list_jobs_fifo st.pending).take k).map DirEntry.stem).contains e.stem))) :=
    (hperm.symm).filter _
  have htake_nil : ((list_jobs_fifo st.pending).take k).filter (fun e =>
      !((((list_jobs_fifo st.pending).take k).map DirEntry.stem).contains e.stem)) = [] := by
    refine List.filter_eq_nil_iff.mpr ?_
    intro e he
    have hm : e.stem ∈ ((list_jobs_fifo st.pending).take k).map DirEntry.stem :=
      List.mem_map.mpr ⟨e, he, rfl⟩
    simp [List.contains]
    simpa using hm
  have hdisj : List.Disjoint (((list_jobs_fifo st.pending).take k).map DirEntry.stem)
      (((list_jobs_fifo st.pending).drop k).map DirEntry.stem) := by
    have hnd2 : ((((list_jobs_fifo st.pending).take k).map DirEntry.stem)
        ++ (((list_jobs_fifo st.pending).drop k).map DirEntry.stem)).Nodup := by
      rw [← List.map_append, List.take_append_drop]
      exact hSnd
    exact (List.nodup_append.mp hnd2).2.2
  have hdrop_self : ((list_jobs_fifo st.pending).drop k).filter (fun e =>
      !((((list_jobs_fifo st.pending).take k).map DirEntry.stem).contains e.stem))
      = (list_jobs_fifo st.pending).drop k := by
    refine List.filter_eq_self.mpr ?_
    intro e he
    have hmem : e.stem ∈ ((list_jobs_fifo st.pending).drop k).map DirEntry.stem :=
      List.mem_map.mpr ⟨e, he, rfl⟩
    have hnotin : e.stem ∉ ((list_jobs_fifo st.pending).take k).map DirEntry.stem :=
      fun hmem2 => hdisj hmem2 hmem
    simp [List.contains]
    simpa using hnotin
  have hSfilter : (list_jobs_fifo st.pending).filter (fun e =>
      !((((list_jobs_fifo st.pending).take k).map DirEntry.stem).contains e.stem))
      = (list_jobs_fifo st.pending).drop k := by
    have h0 : (list_jobs_fifo st.pending).filter (fun e =>
        !((((list_jobs_fifo st.pending).take k).map DirEntry.stem).contains e.stem))
        = ((list_jobs_fifo st.pending).take k ++ (list_jobs_fifo st.pending).drop k).filter
            (fun e =>
              !((((list_jobs_fifo st.pending).take k).map DirEntry.stem).contains e.stem)) := by
      rw [List.take_append_drop]
    rw [h0, List.filter_append, htake_nil, hdrop_self, List.nil_append]
  have hperm2 : (runTick st k o ts).pending.Perm ((list_jobs_fifo st.pending).drop k) := by
    rw [hpend, ← hSfilter]
    exact hfilter_perm
  refine ⟨?_, hperm2⟩
  rw [hperm2.length_eq, List.length_drop, hperm.length_eq]

end OutboxRunner

namespace OutboxRunner

theorem mem_foldl_insertFile (f : DirEntry → String) :
    ∀ (L : List DirEntry) (d : List String) (n : String),
      (n ∈ L.foldl (fun acc j => insertFile (f j) acc) d ↔ n ∈ d ∨ ∃ j ∈ L, n = f j) := by
  intro L
  induction L with
  | nil => simp
  | cons j L' ih =>
    intro d n
    simp only [List.foldl_cons]
    rw [ih, mem_insertFile]
    simp only [List.mem_cons]
    constructor
    · rintro ((hd | hfj) | ⟨x, hx, hfx⟩)
      · exact Or.inl hd
      · exact Or.inr ⟨j, Or.inl rfl, hfj⟩
      · exact Or.inr ⟨x, Or.inr hx, hfx⟩
    · rintro (hd | ⟨x, (rfl | hx), hfx⟩)
      · exact Or.inl (Or.inl hd)
      · exact Or.inl (Or.inr hfx)
      · exact Or.inr ⟨x, hx, hfx⟩

/-- C8 (amended): every file a tick of tools/outbox_runner.py adds to the done directory
is named stem.STATUS.timestamp.json where STATUS is one of the statuses
the runner actually uses: OK, FAILED, BLOCKED. -/
theorem tick_terminal_shape (st : FsState) (k : Nat) (o : String → Status) (ts : String)
    (hd0 : st.done = []) :
    ∀ n ∈ (runTick st k o ts).done, ∃ stem s, (s = "OK" ∨ s = "FAILED" ∨ s = "BLOCKED")
      ∧ n = stem ++ "." ++ s ++ "." ++ ts ++ ".json" := by
  intro n hn
  have hdone : (runTick st k o ts).done
      = ((list_jobs_fifo st.pending).take k).foldl
          (fun d e => insertFile (termName o ts e.stem) d) st.done :=
    processList_done _ _ _ _
  rw [hdone, hd0] at hn
  rcases (mem_foldl_insertFile _ _ _ _).mp hn with h | ⟨e, _, rfl⟩
  · simp at h
  · refine ⟨e.stem, (o e.stem).str, ?_, rfl⟩
    cases o e.stem
    · exact Or.inl rfl
    · exact Or.inr (Or.inl rfl)
    · exact Or.inr (Or.inr rfl)

end OutboxRunner

namespace OutboxRunner

theorem fifoLe_total : ∀ a b : DirEntry, fifoLe a b || fifoLe b a := by
  intro a b
  simp only [fifoLe, Bool.or_eq_true, Bool.and_eq_true, decide_eq_true_eq]
  rcases Nat.lt_trichotomy a.mtime b.mtime with h | h | h
  · exact Or.inl (Or.inl h)
  · rcases Bool.or_eq_true _ _ |>.mp
      (listCharLe_total (jsonName a.stem).data (jsonName b.stem).data) with hs | hs
    · exact Or.inl (Or.inr ⟨h, hs⟩)
    · exact Or.inr (Or.inr ⟨h.symm, hs⟩)
  · exact Or.inr (Or.inl h)

theorem fifoLe_trans : ∀ a b c : DirEntry, fifoLe a b → fifoLe b c → fifoLe a c := by
  intro a b c hab hbc
  simp only [fifoLe, Bool.or_eq_true, Bool.and_eq_true, decide_eq_true_eq] at hab hbc ⊢
  rcases hab with hab | ⟨hab, hab'⟩ <;> rcases hbc with hbc | ⟨hbc, hbc'⟩
  · exact Or.inl (hab.trans hbc)
  · exact Or.inl (hbc ▸ hab)
  · exact Or.inl (hab ▸ hbc)
  · exact Or.inr ⟨hab.trans hbc, listCharLe_trans _ _ _ hab' hbc'⟩

/-- C5 (amended): tools/outbox_runner.py list_jobs_fifo returns a
permutation of the directory contents sorted by the pair (mtime, then
full filename); the task_router and job_runner listers do not (see the
counterexample). -/
theorem list_jobs_fifo_sorted (entries : List DirEntry) :
    (list_jobs_fifo entries).Perm entries ∧ sortedByMtimeName (list_jobs_fifo entries) := by
  refine ⟨stableSort_perm entries, ?_⟩
  have hp := pairwise_stableSort fifoLe_total fifoLe_trans entries
  refine List.Pairwise.imp ?_ hp
  intro a b h
  simpa [fifoLe, strLe, Bool.or_eq_true, Bool.and_eq_true, decide_eq_true_eq] using h

end OutboxRunner

/-- C7 (amended): the type resolution of ida-mcp-gateway/job_router.py is
the explicit chain job_type → task → type (normalized by str/strip and
uppercased only — no replacement of dashes or spaces), then the
identifier-hint substring match, then the empty string; and the
outbox_worker variant is the chain type → job_type → kind → category
(stripped, not uppercased), defaulting to general_insight. -/
theorem c7_resolution_amended (job : Jmap) :
    GatewayRouter.detect_job_type job = detectSpecChain job
    ∧ OutboxWorker.pick_job_type job = pickSpecChain job := by
  constructor
  · unfold GatewayRouter.detect_job_type detectSpecChain
    simp only [List.map, List.find?_cons, List.find?_nil]
    by_cases h1 : GatewayRouter.norm (jget job "job_type") != ""
    · simp [h1]
    · simp only [Bool.not_eq_true] at h1
      by_cases h2 : GatewayRouter.norm (jget job "task") != ""
      · simp [h1, h2]
      · simp only [Bool.not_eq_true] at h2
        by_cases h3 : GatewayRouter.norm (jget job "type") != ""
        · simp [h1, h2, h3]
        · simp only [Bool.not_eq_true] at h3
          simp [h1, h2, h3]
  · unfold OutboxWorker.pick_job_type pickSpecChain
    have hfun : (fun k => match jget job k with
        | some (.pstr v) => if pystrip v != "" then some (pystrip v) else none
        | _ => none) = (fun k => nonblankStr (jget job k)) := by
      funext k
      cases hj : jget job k with
      | none => rfl
      | some v => cases v <;> rfl
    rw [hfun]
    rcases h1 : nonblankStr (jget job "type") with _ | v1 <;>
      rcases h2 : nonblankStr (jget job "job_type") with _ | v2 <;>
        rcases h3 : nonblankStr (jget job "kind") with _ | v3 <;>
          rcases h4 : nonblankStr (jget job "category") with _ | v4 <;>
            simp [List.findSome?_cons, h1, h2, h3, h4]

theorem c1_no_loss_witness :
    (OutboxRunner.pendingStems { pending := [⟨"a", 1⟩, ⟨"b", 2⟩], done := [] }).Nodup
    ∧ (∀ e ∈ ([⟨"a", 1⟩, ⟨"b", 2⟩] : List DirEntry), dotFree e.stem)
    ∧ (({ pending := [⟨"a", 1⟩, ⟨"b", 2⟩], done := [] } : OutboxRunner.FsState).done = [])
    ∧ ((⟨"a", 1⟩ : DirEntry) ∈ ([⟨"a", 1⟩, ⟨"b", 2⟩] : List DirEntry))
    ∧ (((DirEntry.mk "a" 1).stem ∈ OutboxRunner.pendingStems
          (OutboxRunner.runTick { pending := [⟨"a", 1⟩, ⟨"b", 2⟩], done := [] } 1
            (fun _ => OutboxRunner.Status.OK) "20250101T000000Z")
        ∧ (OutboxRunner.runTick { pending := [⟨"a", 1⟩, ⟨"b", 2⟩], done := [] } 1
            (fun _ => OutboxRunner.Status.OK) "20250101T000000Z").done.countP
            (fun n => OutboxRunner.isTerminalOf (DirEntry.mk "a" 1).stem "20250101T000000Z" n) = 0)
      ∨ ((DirEntry.mk "a" 1).stem ∉ OutboxRunner.pendingStems
          (OutboxRunner.runTick { pending := [⟨"a", 1⟩, ⟨"b", 2⟩], done := [] } 1
            (fun _ => OutboxRunner.Status.OK) "20250101T000000Z")
        ∧ (OutboxRunner.runTick { pending := [⟨"a", 1⟩, ⟨"b", 2⟩], done := [] } 1
            (fun _ => OutboxRunner.Status.OK) "20250101T000000Z").done.countP
            (fun n => OutboxRunner.isTerminalOf (DirEntry.mk "a" 1).stem "20250101T000000Z" n) = 1)) :=
  ⟨by decide, by decide, rfl, by decide,
    OutboxRunner.tick_no_loss { pending := [⟨"a", 1⟩, ⟨"b", 2⟩], done := [] } 1
      (fun _ => OutboxRunner.Status.OK) "20250101T000000Z" ⟨"a", 1⟩
      (by decide) (by decide) rfl (by decide)⟩

/-- C2 (counterexample): tools/job_router.py route_job raises ValueError
for an unregistered type instead of returning a structured result, so
dispatching a garbled type is not raise-free as the claim states. -/
theorem c2_route_job_counterexample :
    ToolsRouter.route_job "FOO_BAR"
      = Except.error (ToolsRouter.ValueErrorInfo.unknownJobType "FOO_BAR" ["ROI_SCAN"]) := rfl

/-- C2 (amended): the ida-mcp-gateway dispatch never raises on an unknown
resolved type and returns the structured NEEDS_INPUT result with
details.supported = [ROI_SCAN]; the top-level job_router dispatch returns
a FAILED result that lists no supported types; and the tools registry
route_job raises ValueError (counterexample). -/
theorem c2_unknown_type_amended
    (handler : Jmap → Jmap → GatewayRouter.GResult)
    (rhandler : Jmap → Jmap → RootRouter.RResult)
    (job needs : Jmap) (jt : String)
    (h1 : GatewayRouter.detect_job_type job ≠ "ROI_SCAN")
    (h2 : RootRouter.job_type_of job = .ok jt)
    (h3 : jt ≠ "ROI_SCAN") :
    (GatewayRouter.dispatch handler job needs).status = "NEEDS_INPUT"
    ∧ (GatewayRouter.dispatch handler job needs).details_supported = ["ROI_SCAN"]
    ∧ RootRouter.dispatch rhandler job needs
        = .ok { job_id := (jget job "job_id").getD (.pstr "unknown"), job_type := jt,
                status := "FAILED", reason := "Unknown job type: " ++ jt } := by
  have hbeq : (GatewayRouter.detect_job_type job == "ROI_SCAN") = false := by
    simpa using h1
  refine ⟨?_, ?_, ?_⟩
  · simp [GatewayRouter.dispatch, hbeq]
  · simp [GatewayRouter.dispatch, hbeq]
  · have hbeq2 : (jt == "ROI_SCAN") = false := by simpa using h3
    simp only [RootRouter.dispatch, h2]
    show (if (jt == "ROI_SCAN") = true then pure (rhandler job needs)
      else pure { job_id := (jget job "job_id").getD (.pstr "unknown"), job_type := jt,
                  status := "FAILED", reason := "Unknown job type: " ++ jt } : Except PyExc _) = _
    rw [hbeq2]
    simp
    rfl

theorem c2_unknown_type_witness :
    (GatewayRouter.detect_job_type [("job_type", PyVal.pstr "FOO_BAR")] ≠ "ROI_SCAN")
    ∧ (RootRouter.job_type_of [("job_type", PyVal.pstr "FOO_BAR")] = .ok "FOO_BAR")
    ∧ ("FOO_BAR" : String) ≠ "ROI_SCAN"
    ∧ ((GatewayRouter.dispatch (fun _ _ => ⟨.pnull, none, "", none, none, [], []⟩)
          [("job_type", PyVal.pstr "FOO_BAR")] []).status = "NEEDS_INPUT"
      ∧ (GatewayRouter.dispatch (fun _ _ => ⟨.pnull, none, "", none, none, [], []⟩)
          [("job_type", PyVal.pstr "FOO_BAR")] []).details_supported = ["ROI_SCAN"]
      ∧ RootRouter.dispatch (fun _ _ => ⟨.pnull, "", "", ""⟩)
          [("job_type", PyVal.pstr "FOO_BAR")] []
          = .ok { job_id := (jget [("job_type", PyVal.pstr "FOO_BAR")] "job_id").getD (.pstr "unknown"),
                  job_type := "FOO_BAR", status := "FAILED",
                  reason := "Unknown job type: " ++ "FOO_BAR" }) :=
  ⟨by decide, rfl, by decide,
    c2_unknown_type_amended (fun _ _ => ⟨.pnull, none, "", none, none, [], []⟩)
      (fun _ _ => ⟨.pnull, "", "", ""⟩) [("job_type", PyVal.pstr "FOO_BAR")] [] "FOO_BAR"
      (by decide) rfl (by decide)⟩

/-- C3 (amended): write_result_output consults no fingerprint state and
writes unconditionally: every call performs exactly one sink write of the
result file and one append to the daily log, so publishing the same
unchanged artifact twice performs two result-file writes, not one. -/
theorem c3_publish_amended (result : Jmap) (hint : Option String)
    (nowCompact day hhmm : String) (st : PublishResults.PubState) :
    ((PublishResults.write_result_output result hint nowCompact day hhmm
        ((PublishResults.write_result_output result hint nowCompact day hhmm st).1)).1).writes
      = st.writes
        ++ [PublishResults.out_name hint (PublishResults.extract_job_id result nowCompact),
            PublishResults.dailyName day]
        ++ [PublishResults.out_name hint (PublishResults.extract_job_id result nowCompact),
            PublishResults.dailyName day] := by
  simp [PublishResults.write_result_output]

/-- C3 (counterexample): publishing the identical artifact twice in a row
performs two sink writes of its result file, refuting the claimed exactly
one write with a fingerprint-based skip of the second call. -/
theorem c3_counterexample :
    ((PublishResults.write_result_output [("job_id", .pstr "j1"), ("status", .pstr "ok")] none
        "20250101-000000" "2025-01-01" "00:00"
        ((PublishResults.write_result_output [("job_id", .pstr "j1"), ("status", .pstr "ok")] none
          "20250101-000000" "2025-01-01" "00:00" ⟨[], []⟩).1)).1).writes.count "j1.result.json" = 2
    ∧ (2 : Nat) ≠ 1 := by
  constructor
  · decide
  · decide

/-- C4 (amended): worker/task_router.py main returns exit code 0 for every
job mix (and its entry wrapper forces 0 even if main raises); the
worker/outbox_worker.py entry point returns 0 exactly when every job file
parsed as JSON — handler and OpenAI failures do not affect it — and
returns 2 when at least one job file held malformed JSON. -/
theorem c4_exit_amended (files : List (String × OutboxWorker.JobParse))
    (jobs : List DirEntry) (maxJobs : Nat)
    (h : ∀ f ∈ files, (f.2).isOk = true) :
    (OutboxWorker.mainTick files).exit = 0 ∧ (TaskRouter.mainReport jobs maxJobs).2 = 0 := by
  refine ⟨?_, rfl⟩
  have hfold : ∀ (fs : List (String × OutboxWorker.JobParse)) (pf : Nat × Nat),
      (∀ f ∈ fs, (f.2).isOk = true) →
      (fs.foldl (fun (r : Nat × Nat) f =>
        match f.2 with
        | .badJson _ => (r.1, r.2 + 1)
        | .ok _ => (r.1 + 1, r.2)) pf).2 = pf.2 := by
    intro fs
    induction fs with
    | nil => intro pf _; rfl
    | cons f fs ih =>
      intro pf hall
      have hf : (f.2).isOk = true := hall f (List.mem_cons_self f fs)
      cases hfc : f.2 with
      | ok j =>
        simp only [List.foldl_cons, hfc]
        exact ih _ (fun g hg => hall g (List.mem_cons_of_mem f hg))
      | badJson e =>
        rw [hfc] at hf
        simp [OutboxWorker.JobParse.isOk] at hf
  unfold OutboxWorker.mainTick
  simp only [hfold files (0, 0) h]
  rfl

theorem c4_exit_witness :
    (∀ f ∈ ([("a.json", OutboxWorker.JobParse.ok [("task", .pstr "ROI_SCAN")])] :
        List (String × OutboxWorker.JobParse)), (f.2).isOk = true)
    ∧ ((OutboxWorker.mainTick [("a.json", OutboxWorker.JobParse.ok [("task", .pstr "ROI_SCAN")])]).exit = 0
      ∧ (TaskRouter.mainReport [⟨"a", 1⟩] 20).2 = 0) :=
  ⟨by simp [OutboxWorker.JobParse.isOk],
    c4_exit_amended [("a.json", OutboxWorker.JobParse.ok [("task", .pstr "ROI_SCAN")])]
      [⟨"a", 1⟩] 20 (by simp [OutboxWorker.JobParse.isOk])⟩

/-- C4 (counterexample): a tick of worker/outbox_worker.py over one job
file with malformed JSON exits with status 2, not 0 — an individual job
failure does produce a non-zero exit in this entry point. -/
theorem c4_counterexample :
    (OutboxWorker.mainTick [("bad.json", OutboxWorker.JobParse.badJson "Expecting value")]).exit = 2
    ∧ (2 : Nat) ≠ 0 := ⟨rfl, by decide⟩

/-- C5 (counterexample): with two pending files of equal mtime reached in
directory order [b.json, a.json], worker/task_router.py _list_jobs_fifo
(which sorts by mtime only) returns them in that order, which is not
sorted by (modification time, then name) as the claim states. -/
theorem c5_counterexample :
    TaskRouter.list_jobs_fifo_mtime [⟨"b", 5⟩, ⟨"a", 5⟩] = [⟨"b", 5⟩, ⟨"a", 5⟩]
    ∧ ¬ sortedByMtimeName [⟨"b", 5⟩, ⟨"a", 5⟩] := by
  constructor
  · rfl
  · intro h
    rcases List.pairwise_cons.mp h with ⟨hr, _⟩
    have := hr ⟨"a", 5⟩ (List.mem_cons_self _ _)
    revert this
    decide

theorem c6_budget_witness :
    (OutboxRunner.pendingStems { pending := [⟨"a", 1⟩, ⟨"b", 2⟩], done := [] }).Nodup
    ∧ ((OutboxRunner.runTick { pending := [⟨"a", 1⟩, ⟨"b", 2⟩], done := [] } 1
          (fun _ => OutboxRunner.Status.OK) "20250101T000000Z").pending.length
        = ([⟨"a", 1⟩, ⟨"b", 2⟩] : List DirEntry).length - 1
      ∧ (OutboxRunner.runTick { pending := [⟨"a", 1⟩, ⟨"b", 2⟩], done := [] } 1
          (fun _ => OutboxRunner.Status.OK) "20250101T000000Z").pending.Perm
          ((OutboxRunner.list_jobs_fifo [⟨"a", 1⟩, ⟨"b", 2⟩]).drop 1)) :=
  ⟨by decide,
    OutboxRunner.tick_budget { pending := [⟨"a", 1⟩, ⟨"b", 2⟩], done := [] } 1
      (fun _ => OutboxRunner.Status.OK) "20250101T000000Z" (by decide)⟩

/-- C6 (counterexample): worker/job_runner.py rewrites each processed job
file in place and never moves or unlinks it: a tick over N = 2 pending
jobs with budget k = 1 leaves 2 files in the pending directory, not
N - k = 1. -/
theorem c6_counterexample :
    (JobRunner.run_tick [⟨"a.json", "created"⟩, ⟨"b.json", "created"⟩] 1 (fun _ => true)).length = 2
    ∧ (2 : Nat) ≠ 2 - 1 := by
  constructor
  · rfl
  · decide

/-- C7 (counterexample): a job with explicit field job_type = roi-scan
resolves to ROI-SCAN (uppercasing only); the claim says dashes are
replaced by underscores giving ROI_SCAN, which the code does not do. -/
theorem c7_counterexample :
    GatewayRouter.detect_job_type [("job_type", PyVal.pstr "roi-scan")] = "ROI-SCAN"
    ∧ "ROI-SCAN" ≠ "ROI_SCAN" := by
  constructor
  · decide
  · decide

theorem c8_shape_witness :
    (({ pending := [⟨"job1", 1⟩], done := [] } : OutboxRunner.FsState).done = [])
    ∧ "job1.OK.20250101T000000Z.json" ∈
        (OutboxRunner.runTick { pending := [⟨"job1", 1⟩], done := [] } 1
          (fun _ => OutboxRunner.Status.OK) "20250101T000000Z").done
    ∧ (∃ stem s, (s = "OK" ∨ s = "FAILED" ∨ s = "BLOCKED")
        ∧ "job1.OK.20250101T000000Z.json"
          = stem ++ "." ++ s ++ "." ++ "20250101T000000Z" ++ ".json") :=
  ⟨rfl, by decide,
    OutboxRunner.tick_terminal_shape { pending := [⟨"job1", 1⟩], done := [] } 1
      (fun _ => OutboxRunner.Status.OK) "20250101T000000Z" rfl
      "job1.OK.20250101T000000Z.json" (by decide)⟩

/-- C8 (counterexample): a successful WEB_SEARCH job is moved with the
handler status OK: the terminal file of job1 in this tick is
job1.OK.timestamp.json, which is not the filename produced by any of the
claimed statuses DONE, FAILED, NEEDS_INPUT for that stem and timestamp. -/
theorem c8_counterexample :
    (OutboxRunner.runTick { pending := [⟨"job1", 1⟩], done := [] } 1
        (fun _ => OutboxRunner.Status.OK) "20250101T000000Z").done
      = ["job1.OK.20250101T000000Z.json"]
    ∧ "job1.OK.20250101T000000Z.json"
        ≠ "job1" ++ "." ++ "DONE" ++ "." ++ "20250101T000000Z" ++ ".json"
    ∧ "job1.OK.20250101T000000Z.json"
        ≠ "job1" ++ "." ++ "FAILED" ++ "." ++ "20250101T000000Z" ++ ".json"
    ∧ "job1.OK.20250101T000000Z.json"
        ≠ "job1" ++ "." ++ "NEEDS_INPUT" ++ "." ++ "20250101T000000Z" ++ ".json" := by
  refine ⟨by decide, by decide, by decide, by decide⟩

theorem pyStrip_orChain_empty (v b : PyVal)
    (h : emptyishV v = true) (hb : pyStrip b = .ok "") :
    pyStrip (pyOr v b) = .ok "" := by
  cases v with
  | pnull => simpa [pyOr, truthy] using hb
  | pstr s =>
    simp only [emptyishV] at h
    by_cases hs : s = ""
    · subst hs
      simpa [pyOr, truthy] using hb
    · have hps : pystrip s = "" := eq_of_beq h
      simp [pyOr, truthy, hs, pyStrip, hps]
  | pint n => simp [emptyishV] at h
  | pbool bb => simp [emptyishV] at h
  | pobj f => simp [emptyishV] at h
  | plist l => simp [emptyishV] at h

/-- C9 (amended): the worker/tasks/roi_scan.py executor returns the non-ok
missing-goal result whose needs dict has missing = ["goal"] whenever the
payload holds no usable goal: goal, mål and objective each absent, null,
or a blank string.  (The worker/roi_scan.py variant instead substitutes a
default goal and succeeds; see the counterexample.) -/
theorem c9_missing_goal_amended (openai : Bool × String × String) (ts : String) (job : Jmap)
    (h1 : emptyishV (getOrNull job "goal") = true)
    (h2 : emptyishV (getOrNull job "mål") = true)
    (h3 : emptyishV (getOrNull job "objective") = true) :
    RoiScanTasks.run_roi_scan openai ts job
      = .ok { ok := false, markdown := "", needs := some RoiScanTasks.goalNeeds,
              error := some "Missing required field: goal" } := by
  have hchain : pyStrip (pyOr (getOrNull job "goal")
      (pyOr (getOrNull job "mål") (pyOr (getOrNull job "objective") (.pstr "")))) = .ok "" := by
    refine pyStrip_orChain_empty _ _ h1 ?_
    refine pyStrip_orChain_empty _ _ h2 ?_
    refine pyStrip_orChain_empty _ _ h3 ?_
    exact congrArg Except.ok (by decide)
  unfold RoiScanTasks.run_roi_scan
  rw [hchain]
  rfl

theorem c9_missing_goal_witness :
    (emptyishV (getOrNull [] "goal") = true)
    ∧ (emptyishV (getOrNull [] "mål") = true)
    ∧ (emptyishV (getOrNull [] "objective") = true)
    ∧ RoiScanTasks.run_roi_scan (false, "", "") "20250101T000000Z" []
        = .ok { ok := false, markdown := "", needs := some RoiScanTasks.goalNeeds,
                error := some "Missing required field: goal" } :=
  ⟨by decide, by decide, by decide,
    c9_missing_goal_amended (false, "", "") "20250101T000000Z" []
      (by decide) (by decide) (by decide)⟩

/-- C9 (counterexample): worker/roi_scan.py run() on a ROI_SCAN job with an
empty payload — no goal under any alias — returns the success dict
(ok = true, no error, ROI_PLAN.md deliverable) rather than a NEEDS_INPUT
outcome: _build_roi_plan_md substitutes a default goal. -/
theorem c9_counterexample :
    (RoiScanWorker.run "2025-01-01T00:00:00Z" []).ok = true
    ∧ (RoiScanWorker.run "2025-01-01T00:00:00Z" []).error = none := ⟨rfl, rfl⟩

/-- C10: for every raw job dict that has the required keys and an output
object with a path key, parse_job raises an exception that is not a
JobSchemaError, so such a job can never validate.  The assignment
`_assert = output["path"]` makes _assert a local name of the whole
function body, so in fact already the first `_assert(...)` call raises
UnboundLocalError — on every input, these ones included. -/
theorem c10_parse_job_broken (raw : PyVal)
    (_h1 : JobSchemaTools.requiredKeysPresent raw = true)
    (_h2 : JobSchemaTools.outputHasPath raw = true) :
    JobSchemaTools.parse_job raw = .error (.unboundLocalError "_assert")
    ∧ (PyExc.unboundLocalError "_assert").isSchemaError = false :=
  ⟨rfl, rfl⟩

theorem c10_parse_job_witness :
    (JobSchemaTools.requiredKeysPresent (PyVal.pobj
        [("id", .pstr "j1"), ("type", .pstr "ROI_SCAN"), ("payload", .pobj []),
         ("output", .pobj [("path", .pstr "out.md")])]) = true)
    ∧ (JobSchemaTools.outputHasPath (PyVal.pobj
        [("id", .pstr "j1"), ("type", .pstr "ROI_SCAN"), ("payload", .pobj []),
         ("output", .pobj [("path", .pstr "out.md")])]) = true)
    ∧ (JobSchemaTools.parse_job (PyVal.pobj
        [("id", .pstr "j1"), ("type", .pstr "ROI_SCAN"), ("payload", .pobj []),
         ("output", .pobj [("path", .pstr "out.md")])])
        = .error (.unboundLocalError "_assert")
      ∧ (PyExc.unboundLocalError "_assert").isSchemaError = false) :=
  ⟨by decide, by decide,
    c10_parse_job_broken _ (by decide) (by decide)⟩
